import Mathlib

/-!
# Verification of the job matching and recommendation engine

This file gives a shallow embedding of the scoring/ranking core of the
platform, translated from the two services that contain it:

* `src/microservices/semantic_matcher/main.py` — namespace `SemanticMatcher`
* `src/microservices/job_recommender/main.py`  — namespace `JobRecommender`

Modelling conventions:

* Python strings are modelled as `List Char` (`Str`), so every text
  operation (lowercasing, punctuation stripping, substring tests) is a
  computable, decidable Lean function.  ASCII case folding is assumed.
* Python floats are modelled as exact rationals `ℚ`; the numeric literals
  of the source (`0.4`, `0.15`, …) are taken at face value.
* `random.random()` is modelled by an explicit stream `g : ℕ → ℚ` of draws
  together with a counter that advances exactly where the source calls the
  generator; two process invocations correspond to two different streams.
* `datetime.now()` is modelled by an explicit parameter `now : ℚ` measured
  in days, and an ISO timestamp by the rational number of days it denotes,
  so `timedelta(days=30)` is the literal `30`.
* Python's `list.sort(key=…, reverse=True)` is a stable descending sort;
  it is modelled by a stable insertion sort on the same key, which agrees
  with every stable sort for this ordering.
* The human-readable explanation/reason strings built by the services are
  modelled by enumerations of tags, one per distinct source string, since
  only their presence and order matter here.
-/

namespace JobReady

/-- Characters-as-lists model of Python strings. -/
abbrev Str := List Char

/-- Embed a Lean string literal into the model. -/
def str (s : String) : Str := s.toList

/-- Python `str.lower()` (ASCII). -/
def lowerStr (s : Str) : Str := s.map Char.toLower

/-- Python substring containment `a in b` for strings. -/
def isInfixOf (xs ys : Str) : Bool := ys.tails.any (fun t => xs.isPrefixOf t)

namespace SemanticMatcher

/-- Characters kept by `re.sub(r'[^\w\s]', '', ·)`: word characters
(alphanumeric or underscore) and whitespace. -/
def keepChar (c : Char) : Bool := c.isAlphanum || c == '_' || c.isWhitespace

/-- `normalize_text` (semantic_matcher/main.py, lines 123-133): lowercase,
then drop every character that is neither a word character nor whitespace. -/
def normalize_text (text : Str) : Str := (lowerStr text).filter keepChar

/-- Python `str.split()` with no separator: split on whitespace runs,
discarding empty pieces.  Implemented as a single right fold. -/
def splitWords (s : Str) : List Str :=
  let step : Char → Str × List Str → Str × List Str := fun c acc =>
    if c.isWhitespace then
      if acc.1 = [] then ([], acc.2) else ([], acc.1 :: acc.2)
    else (c :: acc.1, acc.2)
  let r := s.foldr step ([], [])
  if r.1 = [] then r.2 else r.1 :: r.2

/-- The stop-word list of `extract_keywords` (lines 150-153). -/
def stop_words : List Str :=
  [str "the", str "and", str "or", str "but", str "in", str "on", str "at",
   str "to", str "for", str "of", str "with", str "by", str "is", str "are",
   str "was", str "were"]

/-- `extract_keywords` (lines 140-155): normalize, split into words, drop
stop words and words of length ≤ 2. -/
def extract_keywords (text : Str) : List Str :=
  (splitWords (normalize_text text)).filter
    (fun word => !(stop_words.contains word) && decide (2 < word.length))

/-- The `skill_variations` table (lines 100-111), keyed by base skill. -/
def skill_variations : List (Str × List Str) :=
  [(str "python", [str "python", str "python programming", str "python development"]),
   (str "javascript", [str "javascript", str "js", str "javascript development"]),
   (str "react", [str "react", str "react.js", str "reactjs"]),
   (str "node.js", [str "node.js", str "nodejs", str "node"]),
   (str "sql", [str "sql", str "structured query language"]),
   (str "docker", [str "docker", str "docker containers", str "containerization"]),
   (str "aws", [str "aws", str "amazon web services", str "amazon cloud"]),
   (str "machine learning", [str "machine learning", str "ml", str "ai", str "artificial intelligence"]),
   (str "data analysis", [str "data analysis", str "data analytics", str "data science"]),
   (str "project management", [str "project management", str "pm", str "agile", str "scrum"])]

/-- The per-skill body of the matching loop of `calculate_skill_similarity`
(lines 193-206): substring containment either way, then the variations
table. -/
def reqMatchesSkill (req skill : Str) : Bool :=
  isInfixOf req skill || isInfixOf skill req ||
    skill_variations.any (fun bv => bv.2.contains req && bv.2.contains skill)

/-- Whether a (normalized) requirement is matched by the (normalized)
candidate skills: exact membership first, then the per-skill loop. -/
def matchedReq (cand : List Str) (req : Str) : Bool :=
  cand.contains req || cand.any (fun skill => reqMatchesSkill req skill)

/-- The requirement loop of `calculate_skill_similarity` (lines 186-209):
each requirement is appended to the matching list or to the missing list. -/
def skillPartition (cand : List Str) : List Str → List Str × List Str
  | [] => ([], [])
  | req :: rest =>
    let p := skillPartition cand rest
    if matchedReq cand req then (req :: p.1, p.2) else (p.1, req :: p.2)

/-- `calculate_skill_similarity` (lines 167-217).  Note that the returned
matching/missing lists hold the *normalized* requirement strings. -/
def calculate_skill_similarity (candidate_skills job_requirements : List Str) :
    ℚ × List Str × List Str :=
  let cand := candidate_skills.map normalize_text
  let reqs := job_requirements.map normalize_text
  let mm := skillPartition cand reqs
  let score : ℚ := if reqs = [] then 1 else (mm.1.length : ℚ) / (reqs.length : ℚ)
  (score, mm.1, mm.2)

/-- `sum((c1 & c2).values())` for Python `Counter`s built from the two
keyword lists: per distinct key, the minimum of the two multiplicities. -/
def counterInter (a b : List Str) : ℕ :=
  (((a ++ b).dedup).map (fun k => min (a.count k) (b.count k))).sum

/-- `sum((c1 | c2).values())`: per distinct key, the maximum of the two
multiplicities. -/
def counterUnion (a b : List Str) : ℕ :=
  (((a ++ b).dedup).map (fun k => max (a.count k) (b.count k))).sum

/-- `calculate_experience_similarity` (lines 224-253): frequency-aware
Jaccard similarity of the two keyword multisets, with the explicit
`union == 0` guard returning `0.0`. -/
def calculate_experience_similarity (candidate_experience : List Str)
    (job_description : Str) : ℚ :=
  let candidate_keywords := (candidate_experience.map extract_keywords).flatten
  let job_keywords := extract_keywords job_description
  let intersection := counterInter candidate_keywords job_keywords
  let union := counterUnion candidate_keywords job_keywords
  if union = 0 then 0 else (intersection : ℚ) / (union : ℚ)

/-- `calculate_location_match` (lines 260-284): `1.0` on an empty
preference list, otherwise `1.0` on the first normalized substring match
in either direction, else `0.0`. -/
def calculate_location_match (candidate_locations : List Str)
    (job_location : Str) : ℚ :=
  if candidate_locations = [] then 1
  else if candidate_locations.any (fun location =>
      isInfixOf (normalize_text location) (normalize_text job_location) ||
      isInfixOf (normalize_text job_location) (normalize_text location))
    then 1 else 0

/-- `calculate_job_type_match` (lines 291-315), same shape as the location
match. -/
def calculate_job_type_match (candidate_job_types : List Str)
    (job_type : Str) : ℚ :=
  if candidate_job_types = [] then 1
  else if candidate_job_types.any (fun pref =>
      isInfixOf (normalize_text pref) (normalize_text job_type) ||
      isInfixOf (normalize_text job_type) (normalize_text pref))
    then 1 else 0

/-- `CandidateProfile` (lines 45-52). -/
structure CandidateProfile where
  skills : List Str
  experience : List Str
  education : List Str
  career_goals : List Str
  preferred_locations : List Str
  job_types : List Str
deriving DecidableEq

/-- `JobPosting` (lines 59-69). -/
structure JobPosting where
  id : Str
  title : Str
  company : Str
  description : Str
  requirements : List Str
  location : Str
  type : Str
  salary : Option Str
  benefits : List Str
deriving DecidableEq

/-- Tags standing for the explanation strings assembled in `match_jobs`
(lines 369-386), in source order; the three skill tags carry
`int(skill_similarity*100)`. -/
inductive ExplTag where
  | strongSkill (percent : ℤ)
  | moderateSkill (percent : ℤ)
  | lowSkill (percent : ℤ)
  | relevantExperience
  | preferredLocation
  | preferredJobType
deriving DecidableEq

/-- `JobMatch` (lines 81-87). -/
structure JobMatch where
  job_id : Str
  similarity_score : ℚ
  matching_skills : List Str
  missing_skills : List Str
  explanation : List ExplTag
deriving DecidableEq

/-- The weighted overall similarity computed per job in `match_jobs`
(lines 359-366): skills 40%, experience 30%, location 15%, job type 15%. -/
def overallScore (candidate : CandidateProfile) (job : JobPosting) : ℚ :=
  (calculate_skill_similarity candidate.skills job.requirements).1 * 0.4 +
  calculate_experience_similarity candidate.experience job.description * 0.3 +
  calculate_location_match candidate.preferred_locations job.location * 0.15 +
  calculate_job_type_match candidate.job_types job.type * 0.15

/-- The explanation assembly of `match_jobs` (lines 369-386). -/
def explanationFor (skill exp loc jt : ℚ) : List ExplTag :=
  (if 0.5 < skill then [ExplTag.strongSkill ⌊skill * 100⌋]
   else if 0.2 < skill then [ExplTag.moderateSkill ⌊skill * 100⌋]
   else [ExplTag.lowSkill ⌊skill * 100⌋]) ++
  (if 0.3 < exp then [ExplTag.relevantExperience] else []) ++
  (if 0.5 < loc then [ExplTag.preferredLocation] else []) ++
  (if 0.5 < jt then [ExplTag.preferredJobType] else [])

/-- The `JobMatch` built for one job inside the loop of `match_jobs`
(lines 341-395). -/
def mkJobMatch (candidate : CandidateProfile) (job : JobPosting) : JobMatch :=
  let sk := calculate_skill_similarity candidate.skills job.requirements
  { job_id := job.id
    similarity_score := overallScore candidate job
    matching_skills := sk.2.1
    missing_skills := sk.2.2
    explanation := explanationFor sk.1
      (calculate_experience_similarity candidate.experience job.description)
      (calculate_location_match candidate.preferred_locations job.location)
      (calculate_job_type_match candidate.job_types job.type) }

end SemanticMatcher

/-- One step of the stable descending insertion sort modelling Python's
`list.sort(key=…, reverse=True)`: the incoming element goes in front of
the first already-placed element whose key is `≤` its own. -/
def insertKeyDesc {α : Type} (key : α → ℚ) (a : α) : List α → List α
  | [] => [a]
  | b :: l => if key b ≤ key a then a :: b :: l else b :: insertKeyDesc key a l

/-- Stable descending sort by a rational key.  `sortKeyDesc` inserts the
elements back-to-front, so an element placed later (i.e. appearing earlier
in the input) lands in front of every element with an equal key: exactly
the stable behaviour of Python's `list.sort` with `reverse=True`. -/
def sortKeyDesc {α : Type} (key : α → ℚ) : List α → List α
  | [] => []
  | b :: l => insertKeyDesc key b (sortKeyDesc key l)

namespace SemanticMatcher

/-- `match_jobs` (lines 327-400): score every job, then sort by similarity
score in descending order. -/
def match_jobs (candidate : CandidateProfile) (jobs : List JobPosting) :
    List JobMatch :=
  sortKeyDesc (fun m => m.similarity_score) (jobs.map (mkJobMatch candidate))

end SemanticMatcher

namespace JobRecommender

/-- The action strings of `UserActivity` (job_recommender/main.py, line 48). -/
inductive Action where
  | viewed
  | applied
  | saved
  | dismissed
deriving DecidableEq

/-- `UserActivity` (lines 45-49); the ISO timestamp is modelled as the
rational number of days it denotes. -/
structure UserActivity where
  job_id : Str
  action : Action
  timestamp : ℚ
deriving DecidableEq

/-- `UserPreferences` (lines 56-63); `salary_range` is the optional
`{"min": …, "max": …}` pair. -/
structure UserPreferences where
  preferred_roles : List Str
  preferred_industries : List Str
  preferred_locations : List Str
  job_types : List Str
  salary_range : Option (ℤ × ℤ)
  experience_level : Str
deriving DecidableEq

/-- `JobPosting` (lines 70-83). -/
structure JobPosting where
  id : Str
  title : Str
  company : Str
  location : Str
  type : Str
  description : Str
  requirements : List Str
  salary : Option Str
  posted_date : Str
  is_remote : Bool
  industry : Str
  experience_level : Str
deriving DecidableEq

/-- One entry of `past_roles` as documented at line 96. -/
structure PastRole where
  role : Str
  duration : Str
  achievements : List Str
deriving DecidableEq

/-- `CareerTrajectory` (lines 90-96). -/
structure CareerTrajectory where
  current_role : Str
  years_experience : ℕ
  skills : List Str
  career_goals : List Str
  past_roles : List PastRole
deriving DecidableEq

/-- The `recommendation_type` strings (line 119). -/
inductive RecType where
  | for_you
  | career_growth
  | skill_match
  | new_opportunity
deriving DecidableEq

/-- Tags for the reason strings appended at lines 291-298, in source
order: location, job type, role, industry. -/
inductive Reason where
  | matchesLocation
  | matchesJobType
  | matchesRole
  | matchesIndustry
deriving DecidableEq

/-- `JobRecommendation` (lines 111-120). -/
structure JobRecommendation where
  job_id : Str
  title : Str
  company : Str
  location : Str
  match_score : ℚ
  reasons : List Reason
  recommendation_type : RecType
  apply_probability : ℚ
deriving DecidableEq

/-- `RecommendationRequest` (lines 103-109). -/
structure RecommendationRequest where
  user_id : Str
  career_trajectory : CareerTrajectory
  preferences : UserPreferences
  activity_history : List UserActivity
  job_pool : List JobPosting
deriving DecidableEq

/-- `RecommendationResponse` (lines 122-128). -/
structure RecommendationResponse where
  recommendations : List JobRecommendation
  personalized_feed : List JobRecommendation
  career_growth_opportunities : List JobRecommendation
  skill_based_matches : List JobRecommendation
  new_opportunities : List JobRecommendation
deriving DecidableEq

/-- The location condition of `calculate_base_match_score`, line 155:
Python `job.location in user_preferences.preferred_locations` is exact
list membership, with the `or job.is_remote` escape. -/
def locationCond (user_preferences : UserPreferences) (job : JobPosting) : Bool :=
  user_preferences.preferred_locations.contains job.location || job.is_remote

/-- The role condition used for scoring (lines 167-170): a preferred role
appears, lowercased, inside the job title or the job description. -/
def roleCondForScore (user_preferences : UserPreferences) (job : JobPosting) : Bool :=
  user_preferences.preferred_roles.any (fun role =>
    isInfixOf (lowerStr role) (lowerStr job.title) ||
    isInfixOf (lowerStr role) (lowerStr job.description))

/-- The role condition used for the reason list (line 295): title only. -/
def roleCondForReason (user_preferences : UserPreferences) (job : JobPosting) : Bool :=
  user_preferences.preferred_roles.any (fun role =>
    isInfixOf (lowerStr role) (lowerStr job.title))

/-- The skill-match count (lines 182-187 and 309-310): how many candidate
skills appear, lowercased, inside at least one requirement. -/
def skillMatchCount (career_trajectory : CareerTrajectory) (job : JobPosting) : ℕ :=
  career_trajectory.skills.countP (fun skill =>
    job.requirements.any (fun req => isInfixOf (lowerStr skill) (lowerStr req)))

/-- `calculate_base_match_score` (lines 140-193).  `g` is the stream of
`random.random()` draws and `n` the position of the next draw; the salary
branch (lines 177-179) is the only consumer of randomness here. -/
def calculate_base_match_score (user_preferences : UserPreferences)
    (job : JobPosting) (career_trajectory : CareerTrajectory)
    (g : ℕ → ℚ) (n : ℕ) : ℚ × ℕ :=
  let score : ℚ := 0
  let score := if locationCond user_preferences job then score + 0.2 else score
  let score := if user_preferences.job_types.contains job.type then score + 0.15 else score
  let score := if user_preferences.preferred_industries.contains job.industry then score + 0.15 else score
  let score := if roleCondForScore user_preferences job then score + 0.2 else score
  let score := if job.experience_level = user_preferences.experience_level then score + 0.1 else score
  let sn : ℚ × ℕ :=
    match user_preferences.salary_range with
    | some _ => (score + 0.1 * g n, n + 1)
    | none => (score, n)
  let skill_matches := skillMatchCount career_trajectory job
  let score := if job.requirements = [] then sn.1
    else sn.1 + 0.1 * ((skill_matches : ℚ) / (job.requirements.length : ℚ))
  (min score 1, sn.2)

/-- Clamping used at line 232: `max(0.0, min(score, 1.0))`. -/
def clamp01 (x : ℚ) : ℚ := max 0 (min x 1)

/-- The per-event score delta of `adjust_for_activity_history`
(lines 219-229): +0.10 for `applied`, −0.20 for `dismissed`, +0.05 for
`saved`, nothing for `viewed`. -/
def actionDelta : Action → ℚ
  | Action.applied => 0.1
  | Action.dismissed => -(0.2)
  | Action.saved => 0.05
  | Action.viewed => 0

/-- `adjust_for_activity_history` (lines 200-232): keep the events of the
trailing 30-day window, walk them in order adding +0.10 / −0.20 / +0.05
for applied / dismissed / saved events on this job, clamp at the end. -/
def adjust_for_activity_history (score : ℚ) (job_id : Str)
    (activity_history : List UserActivity) (now : ℚ) : ℚ :=
  let recent_activities := activity_history.filter (fun a => now - 30 < a.timestamp)
  let adjusted := recent_activities.foldl (fun s activity =>
    if activity.job_id = job_id then
      match activity.action with
      | Action.applied => s + 0.1
      | Action.dismissed => s - 0.2
      | Action.saved => s + 0.05
      | Action.viewed => s
    else s) score
  clamp01 adjusted

/-- The seniority (elif) chain of
`identify_career_growth_opportunities` (lines 256-263), collapsed to its
disjunction: a job is appended exactly once iff one of the three branches
fires. -/
def isGrowthJob (career_trajectory : CareerTrajectory) (job : JobPosting) : Bool :=
  (isInfixOf (str "senior") (lowerStr job.title) &&
    !(isInfixOf (str "senior") (lowerStr career_trajectory.current_role))) ||
  (isInfixOf (str "lead") (lowerStr job.title) &&
    !(isInfixOf (str "lead") (lowerStr career_trajectory.current_role))) ||
  (isInfixOf (str "manager") (lowerStr job.title) &&
    !(isInfixOf (str "manager") (lowerStr career_trajectory.current_role)))

/-- `identify_career_growth_opportunities` (lines 239-265). -/
def identify_career_growth_opportunities (career_trajectory : CareerTrajectory)
    (jobs : List JobPosting) : List JobPosting :=
  jobs.filter (isGrowthJob career_trajectory)

/-- The recommendation-type assignment of `generate_recommendations`
(lines 300-312): default `for_you`, upgraded to `career_growth` when the
growth check fires, overridden by `skill_match` when more than half the
requirements are skill-matched (evaluated last, so it wins). -/
def recTypeFor (career_trajectory : CareerTrajectory) (job : JobPosting) : RecType :=
  if (skillMatchCount career_trajectory job : ℚ) > (job.requirements.length : ℚ) * 0.5 then
    RecType.skill_match
  else if identify_career_growth_opportunities career_trajectory [job] ≠ [] then
    RecType.career_growth
  else
    RecType.for_you

/-- The reason list of `generate_recommendations` (lines 290-298). -/
def reasonsFor (user_preferences : UserPreferences) (job : JobPosting) : List Reason :=
  (if locationCond user_preferences job then [Reason.matchesLocation] else []) ++
  (if user_preferences.job_types.contains job.type then [Reason.matchesJobType] else []) ++
  (if roleCondForReason user_preferences job then [Reason.matchesRole] else []) ++
  (if user_preferences.preferred_industries.contains job.industry then [Reason.matchesIndustry] else [])

/-- The per-job body of the scoring loop of `generate_recommendations`
(lines 285-326): base score (possibly one draw), activity adjustment,
reasons, type, and the apply probability, which always consumes one
draw (line 315). -/
def processJob (user_preferences : UserPreferences)
    (career_trajectory : CareerTrajectory)
    (activity_history : List UserActivity) (now : ℚ) (g : ℕ → ℚ)
    (job : JobPosting) (n : ℕ) : JobRecommendation × ℕ :=
  let bn := calculate_base_match_score user_preferences job career_trajectory g n
  let adjusted_score := adjust_for_activity_history bn.1 job.id activity_history now
  let apply_probability := min (adjusted_score + 0.2 * g bn.2) 1
  ({ job_id := job.id
     title := job.title
     company := job.company
     location := job.location
     match_score := adjusted_score
     reasons := reasonsFor user_preferences job
     recommendation_type := recTypeFor career_trajectory job
     apply_probability := apply_probability }, bn.2 + 1)

/-- The scoring loop of `generate_recommendations` (lines 282-326),
threading the random-draw counter left to right through the pool. -/
def buildRecs (user_preferences : UserPreferences)
    (career_trajectory : CareerTrajectory)
    (activity_history : List UserActivity) (now : ℚ) (g : ℕ → ℚ) :
    List JobPosting → ℕ → List JobRecommendation × ℕ
  | [], n => ([], n)
  | job :: rest, n =>
    let rn := processJob user_preferences career_trajectory activity_history now g job n
    let tail := buildRecs user_preferences career_trajectory activity_history now g rest rn.2
    (rn.1 :: tail.1, tail.2)

/-- The backfill loop of `generate_recommendations` (lines 338-339):
`while len(personalized_feed) < 10 and recommendations:` pop the head of
the (sorted, mutated) recommendation list onto the personalized feed.
Returns the final feed together with what is left of the list. -/
def backfill : List JobRecommendation → List JobRecommendation →
    List JobRecommendation × List JobRecommendation
  | pf, [] => (pf, [])
  | pf, r :: rs =>
    if pf.length < 10 then backfill (pf ++ [r]) rs else (pf, r :: rs)

/-- `generate_recommendations` (lines 272-348): score the pool, sort by
match score descending (stable `list.sort` with `reverse=True`), filter
the four category lists from the sorted list, run the backfill loop
(which pops from the sorted list itself), and truncate the overall list
to 20 afterwards. -/
def generate_recommendations (request : RecommendationRequest) (now : ℚ)
    (g : ℕ → ℚ) : RecommendationResponse :=
  let recommendations := (buildRecs request.preferences request.career_trajectory
    request.activity_history now g request.job_pool 0).1
  let sorted := sortKeyDesc (fun r => r.match_score) recommendations
  let personalized_feed := (sorted.filter
    (fun r => decide (r.recommendation_type = RecType.for_you))).take 10
  let career_growth_opportunities := (sorted.filter
    (fun r => decide (r.recommendation_type = RecType.career_growth))).take 5
  let skill_based_matches := (sorted.filter
    (fun r => decide (r.recommendation_type = RecType.skill_match))).take 5
  let new_opportunities := (sorted.filter
    (fun r => decide (r.recommendation_type = RecType.new_opportunity))).take 5
  let bf := backfill personalized_feed sorted
  { recommendations := bf.2.take 20
    personalized_feed := bf.1
    career_growth_opportunities := career_growth_opportunities
    skill_based_matches := skill_based_matches
    new_opportunities := new_opportunities }

/-- Observation function used to compare two runs of the engine up to the
randomized `apply_probability` field: it zeroes that field and keeps
everything else. -/
def stripAP (r : JobRecommendation) : JobRecommendation :=
  { r with apply_probability := 0 }

/-- `stripAP` applied to every list of a response. -/
def eraseAPResp (resp : RecommendationResponse) : RecommendationResponse :=
  { recommendations := resp.recommendations.map stripAP
    personalized_feed := resp.personalized_feed.map stripAP
    career_growth_opportunities := resp.career_growth_opportunities.map stripAP
    skill_based_matches := resp.skill_based_matches.map stripAP
    new_opportunities := resp.new_opportunities.map stripAP }

end JobRecommender

/-! ## Properties of the stable descending sort -/

theorem perm_insertKeyDesc {α : Type} (key : α → ℚ) (a : α) (l : List α) :
    List.Perm (insertKeyDesc key a l) (a :: l) := by
  induction l with
  | nil => exact List.Perm.refl _
  | cons b t ih =>
    rw [insertKeyDesc]
    split
    · exact List.Perm.refl _
    · exact (ih.cons b).trans (List.Perm.swap a b t)

theorem perm_sortKeyDesc {α : Type} (key : α → ℚ) (l : List α) :
    List.Perm (sortKeyDesc key l) l := by
  induction l with
  | nil => exact List.Perm.refl _
  | cons b t ih =>
    exact (perm_insertKeyDesc key b (sortKeyDesc key t)).trans (ih.cons b)

theorem mem_insertKeyDesc {α : Type} (key : α → ℚ) (a x : α) (l : List α) :
    x ∈ insertKeyDesc key a l ↔ x = a ∨ x ∈ l := by
  rw [(perm_insertKeyDesc key a l).mem_iff, List.mem_cons]

theorem sorted_insertKeyDesc {α : Type} (key : α → ℚ) (a : α) (l : List α)
    (h : l.Pairwise (fun x y => key y ≤ key x)) :
    (insertKeyDesc key a l).Pairwise (fun x y => key y ≤ key x) := by
  induction l with
  | nil => simp [insertKeyDesc]
  | cons b t ih =>
    rw [List.pairwise_cons] at h
    rw [insertKeyDesc]
    split
    · rename_i hba
      refine List.Pairwise.cons ?_ (List.Pairwise.cons h.1 h.2)
      intro x hx
      rcases List.mem_cons.mp hx with rfl | hxt
      · exact hba
      · exact (h.1 x hxt).trans hba
    · rename_i hba
      refine List.Pairwise.cons ?_ (ih h.2)
      intro x hx
      rcases (mem_insertKeyDesc key a x t).mp hx with rfl | hxt
      · exact le_of_not_le hba
      · exact h.1 x hxt

theorem sorted_sortKeyDesc {α : Type} (key : α → ℚ) (l : List α) :
    (sortKeyDesc key l).Pairwise (fun x y => key y ≤ key x) := by
  induction l with
  | nil => simp [sortKeyDesc]
  | cons b t ih => exact sorted_insertKeyDesc key b (sortKeyDesc key t) ih

theorem filter_insertKeyDesc {α : Type} (key : α → ℚ) (s : ℚ) (a : α) (l : List α) :
    (insertKeyDesc key a l).filter (fun x => decide (key x = s)) =
      if key a = s then a :: l.filter (fun x => decide (key x = s))
      else l.filter (fun x => decide (key x = s)) := by
  induction l with
  | nil =>
    by_cases has : key a = s <;> simp [insertKeyDesc, List.filter, has]
  | cons b t ih =>
    rw [insertKeyDesc]
    split
    · rename_i hba
      by_cases has : key a = s <;> simp [List.filter_cons, has]
    · rename_i hba
      have hab : key a < key b := lt_of_not_le hba
      by_cases has : key a = s
      · have hbs : ¬ key b = s := by
          intro hbs
          rw [has, hbs] at hab
          exact lt_irrefl s hab
        simp [List.filter_cons, hbs, ih, has]
      · by_cases hbs : key b = s <;> simp [List.filter_cons, hbs, ih, has]

theorem filter_sortKeyDesc {α : Type} (key : α → ℚ) (s : ℚ) (l : List α) :
    (sortKeyDesc key l).filter (fun x => decide (key x = s)) =
      l.filter (fun x => decide (key x = s)) := by
  induction l with
  | nil => rfl
  | cons b t ih =>
    rw [sortKeyDesc, filter_insertKeyDesc]
    by_cases hbs : key b = s <;> simp [List.filter_cons, hbs, ih]

theorem map_insertKeyDesc {α : Type} (key : α → ℚ) (f : α → α)
    (hf : ∀ x, key (f x) = key x) (a : α) (l : List α) :
    (insertKeyDesc key a l).map f = insertKeyDesc key (f a) (l.map f) := by
  induction l with
  | nil => rfl
  | cons b t ih =>
    rw [insertKeyDesc]
    split
    · rename_i hba
      simp only [List.map_cons]
      rw [insertKeyDesc, if_pos (show key (f b) ≤ key (f a) by rw [hf, hf]; exact hba)]
    · rename_i hba
      simp only [List.map_cons]
      rw [insertKeyDesc, if_neg (show ¬ key (f b) ≤ key (f a) by rw [hf, hf]; exact hba), ih]

theorem map_sortKeyDesc {α : Type} (key : α → ℚ) (f : α → α)
    (hf : ∀ x, key (f x) = key x) (l : List α) :
    (sortKeyDesc key l).map f = sortKeyDesc key (l.map f) := by
  induction l with
  | nil => rfl
  | cons b t ih => rw [sortKeyDesc, map_insertKeyDesc key f hf, ih, List.map_cons, sortKeyDesc]

/-! ## Helper lemmas about the semantic matcher -/

namespace SemanticMatcher

theorem skillPartition_eq_filter (cand : List Str) (l : List Str) :
    skillPartition cand l =
      (l.filter (matchedReq cand), l.filter (fun r => ! matchedReq cand r)) := by
  induction l with
  | nil => rfl
  | cons req rest ih =>
    rw [skillPartition, ih]
    by_cases h : matchedReq cand req = true
    · simp [h, List.filter_cons]
    · simp only [Bool.not_eq_true] at h
      simp [h, List.filter_cons]

theorem calculate_skill_similarity_nonneg (skills reqs : List Str) :
    0 ≤ (calculate_skill_similarity skills reqs).1 := by
  simp only [calculate_skill_similarity]
  split
  · norm_num
  · positivity

theorem calculate_skill_similarity_le_one (skills reqs : List Str) :
    (calculate_skill_similarity skills reqs).1 ≤ 1 := by
  simp only [calculate_skill_similarity]
  split
  · norm_num
  · rename_i h
    rw [skillPartition_eq_filter]
    have hlen : ((reqs.map normalize_text).filter (matchedReq (skills.map normalize_text))).length ≤
        (reqs.map normalize_text).length := List.length_filter_le _ _
    have hpos : 0 < ((reqs.map normalize_text).length : ℚ) := by
      have : (reqs.map normalize_text).length ≠ 0 := by
        intro h0
        exact h (List.eq_nil_of_length_eq_zero h0)
      exact_mod_cast Nat.pos_of_ne_zero this
    rw [div_le_one hpos]
    exact_mod_cast hlen

theorem counterInter_le_counterUnion (a b : List Str) :
    counterInter a b ≤ counterUnion a b := by
  rw [counterInter, counterUnion]
  refine List.sum_le_sum ?_
  intro k _
  exact min_le_of_left_le (le_max_left _ _)

theorem calculate_experience_similarity_nonneg (exp : List Str) (desc : Str) :
    0 ≤ calculate_experience_similarity exp desc := by
  simp only [calculate_experience_similarity]
  split
  · norm_num
  · positivity

theorem calculate_experience_similarity_le_one (exp : List Str) (desc : Str) :
    calculate_experience_similarity exp desc ≤ 1 := by
  simp only [calculate_experience_similarity]
  split
  · norm_num
  · rename_i h
    have hle := counterInter_le_counterUnion
      ((exp.map extract_keywords).flatten) (extract_keywords desc)
    have hpos : 0 < (counterUnion ((exp.map extract_keywords).flatten)
        (extract_keywords desc) : ℚ) := by
      exact_mod_cast Nat.pos_of_ne_zero h
    rw [div_le_one hpos]
    exact_mod_cast hle

theorem calculate_location_match_cases (locs : List Str) (loc : Str) :
    calculate_location_match locs loc = 1 ∨ calculate_location_match locs loc = 0 := by
  rw [calculate_location_match]
  split
  · exact Or.inl rfl
  · split
    · exact Or.inl rfl
    · exact Or.inr rfl

theorem calculate_job_type_match_cases (jts : List Str) (jt : Str) :
    calculate_job_type_match jts jt = 1 ∨ calculate_job_type_match jts jt = 0 := by
  rw [calculate_job_type_match]
  split
  · exact Or.inl rfl
  · split
    · exact Or.inl rfl
    · exact Or.inr rfl

theorem overallScore_nonneg (c : CandidateProfile) (job : JobPosting) :
    0 ≤ overallScore c job := by
  rw [overallScore]
  have h1 := calculate_skill_similarity_nonneg c.skills job.requirements
  have h2 := calculate_experience_similarity_nonneg c.experience job.description
  have h3 := calculate_location_match_cases c.preferred_locations job.location
  have h4 := calculate_job_type_match_cases c.job_types job.type
  rcases h3 with h3 | h3 <;> rcases h4 with h4 | h4 <;> rw [h3, h4] <;> nlinarith

theorem overallScore_le_one (c : CandidateProfile) (job : JobPosting) :
    overallScore c job ≤ 1 := by
  rw [overallScore]
  have h1 := calculate_skill_similarity_le_one c.skills job.requirements
  have h1' := calculate_skill_similarity_nonneg c.skills job.requirements
  have h2 := calculate_experience_similarity_le_one c.experience job.description
  have h2' := calculate_experience_similarity_nonneg c.experience job.description
  have h3 := calculate_location_match_cases c.preferred_locations job.location
  have h4 := calculate_job_type_match_cases c.job_types job.type
  rcases h3 with h3 | h3 <;> rcases h4 with h4 | h4 <;> rw [h3, h4] <;> nlinarith

theorem matchedReq_iff (cand : List Str) (req : Str) :
    matchedReq cand req = true ↔
      req ∈ cand ∨ ∃ s ∈ cand, reqMatchesSkill req s = true := by
  rw [matchedReq, Bool.or_eq_true, List.elem_iff, List.any_eq_true]

theorem matchedReq_mono (cand : List Str) (x req : Str)
    (h : matchedReq cand req = true) : matchedReq (cand ++ [x]) req = true := by
  rw [matchedReq_iff] at h ⊢
  rcases h with h | ⟨s, hs, hrs⟩
  · exact Or.inl (List.mem_append_of_mem_left _ h)
  · exact Or.inr ⟨s, List.mem_append_of_mem_left _ hs, hrs⟩

theorem countP_lt_of_mem {α : Type} (p q : α → Bool)
    (hmono : ∀ x, p x = true → q x = true) :
    ∀ (l : List α) (a : α), a ∈ l → p a = false → q a = true →
      l.countP p < l.countP q := by
  intro l
  induction l with
  | nil => intro a ha; cases ha
  | cons b t ih =>
    intro a ha hp hq
    rcases List.mem_cons.mp ha with rfl | hm
    · simp only [List.countP_cons, hp, hq, if_neg, if_pos]
      simp
      exact Nat.lt_succ_of_le (List.countP_mono_left (fun x _ hx => hmono x hx))
    · have hcount := ih a hm hp hq
      by_cases hpb : p b = true
      · have hqb := hmono b hpb
        simp [List.countP_cons, hpb, hqb]
        omega
      · simp only [List.countP_cons]
        by_cases hqb : q b = true <;> simp [hpb, hqb] <;> omega

theorem mkJobMatch_job_id (c : CandidateProfile) (job : JobPosting) :
    (mkJobMatch c job).job_id = job.id := rfl

theorem mkJobMatch_score (c : CandidateProfile) (job : JobPosting) :
    (mkJobMatch c job).similarity_score = overallScore c job := rfl

end SemanticMatcher

theorem mem_sortKeyDesc {α : Type} (key : α → ℚ) (l : List α) (x : α) :
    x ∈ sortKeyDesc key l ↔ x ∈ l :=
  (perm_sortKeyDesc key l).mem_iff

/-! ## Helper lemmas about the job recommender -/

namespace JobRecommender

theorem clamp01_nonneg (x : ℚ) : 0 ≤ clamp01 x := le_max_left 0 _

theorem clamp01_le_one (x : ℚ) : clamp01 x ≤ 1 :=
  max_le (by norm_num) (min_le_right x 1)

theorem adjust_nonneg (score : ℚ) (jid : Str) (hist : List UserActivity) (now : ℚ) :
    0 ≤ adjust_for_activity_history score jid hist now := by
  simp only [adjust_for_activity_history]
  exact clamp01_nonneg _

theorem adjust_le_one (score : ℚ) (jid : Str) (hist : List UserActivity) (now : ℚ) :
    adjust_for_activity_history score jid hist now ≤ 1 := by
  simp only [adjust_for_activity_history]
  exact clamp01_le_one _

theorem processJob_match_score (p : UserPreferences) (t : CareerTrajectory)
    (h : List UserActivity) (now : ℚ) (g : ℕ → ℚ) (job : JobPosting) (n : ℕ) :
    (processJob p t h now g job n).1.match_score =
      adjust_for_activity_history (calculate_base_match_score p job t g n).1
        job.id h now := rfl

theorem processJob_job_id (p : UserPreferences) (t : CareerTrajectory)
    (h : List UserActivity) (now : ℚ) (g : ℕ → ℚ) (job : JobPosting) (n : ℕ) :
    (processJob p t h now g job n).1.job_id = job.id := rfl

theorem processJob_recType (p : UserPreferences) (t : CareerTrajectory)
    (h : List UserActivity) (now : ℚ) (g : ℕ → ℚ) (job : JobPosting) (n : ℕ) :
    (processJob p t h now g job n).1.recommendation_type = recTypeFor t job := rfl

theorem buildRecs_score_bounds (p : UserPreferences) (t : CareerTrajectory)
    (h : List UserActivity) (now : ℚ) (g : ℕ → ℚ) :
    ∀ (pool : List JobPosting) (n : ℕ),
      ∀ r ∈ (buildRecs p t h now g pool n).1, 0 ≤ r.match_score ∧ r.match_score ≤ 1 := by
  intro pool
  induction pool with
  | nil => intro n r hr; cases hr
  | cons job rest ih =>
    intro n r hr
    rw [buildRecs] at hr
    rcases List.mem_cons.mp hr with rfl | hr
    · rw [processJob_match_score]
      exact ⟨adjust_nonneg _ _ _ _, adjust_le_one _ _ _ _⟩
    · exact ih _ r hr

theorem buildRecs_map_job_id (p : UserPreferences) (t : CareerTrajectory)
    (h : List UserActivity) (now : ℚ) (g : ℕ → ℚ) :
    ∀ (pool : List JobPosting) (n : ℕ),
      ((buildRecs p t h now g pool n).1).map (fun r => r.job_id) =
        pool.map (fun j => j.id) := by
  intro pool
  induction pool with
  | nil => intro n; rfl
  | cons job rest ih =>
    intro n
    rw [buildRecs]
    simp only [List.map_cons]
    rw [processJob_job_id, ih]

theorem recTypeFor_ne_new_opportunity (t : CareerTrajectory) (job : JobPosting) :
    recTypeFor t job ≠ RecType.new_opportunity := by
  rw [recTypeFor]
  split
  · intro hc; cases hc
  · split
    · intro hc; cases hc
    · intro hc; cases hc

theorem buildRecs_recType (p : UserPreferences) (t : CareerTrajectory)
    (h : List UserActivity) (now : ℚ) (g : ℕ → ℚ) :
    ∀ (pool : List JobPosting) (n : ℕ),
      ∀ r ∈ (buildRecs p t h now g pool n).1,
        r.recommendation_type ≠ RecType.new_opportunity := by
  intro pool
  induction pool with
  | nil => intro n r hr; cases hr
  | cons job rest ih =>
    intro n r hr
    rw [buildRecs] at hr
    rcases List.mem_cons.mp hr with rfl | hr
    · rw [processJob_recType]
      exact recTypeFor_ne_new_opportunity t job
    · exact ih _ r hr

theorem adjust_foldl_eq (jid : Str) :
    ∀ (l : List UserActivity) (s₀ : ℚ),
      l.foldl (fun s activity =>
        if activity.job_id = jid then
          match activity.action with
          | Action.applied => s + 0.1
          | Action.dismissed => s - 0.2
          | Action.saved => s + 0.05
          | Action.viewed => s
        else s) s₀ =
      s₀ + ((l.filter (fun a => decide (a.job_id = jid))).map
        (fun a => actionDelta a.action)).sum := by
  intro l
  induction l with
  | nil => intro s₀; simp
  | cons a t ih =>
    intro s₀
    rw [List.foldl_cons, List.filter_cons]
    by_cases hid : a.job_id = jid
    · cases hact : a.action <;> simp [hid, hact, ih, actionDelta] <;> ring
    · simp [hid, ih]

theorem stripAP_match_score (r : JobRecommendation) :
    (stripAP r).match_score = r.match_score := rfl

theorem base_eq_of_salary_none (prefs : UserPreferences) (job : JobPosting)
    (traj : CareerTrajectory) (h : prefs.salary_range = none) (g1 g2 : ℕ → ℚ) (n : ℕ) :
    calculate_base_match_score prefs job traj g1 n =
      calculate_base_match_score prefs job traj g2 n := by
  simp only [calculate_base_match_score, h]

theorem processJob_strip_of_salary_none (p : UserPreferences) (t : CareerTrajectory)
    (hist : List UserActivity) (now : ℚ) (h : p.salary_range = none)
    (g1 g2 : ℕ → ℚ) (job : JobPosting) (n : ℕ) :
    stripAP (processJob p t hist now g1 job n).1 =
      stripAP (processJob p t hist now g2 job n).1 ∧
    (processJob p t hist now g1 job n).2 = (processJob p t hist now g2 job n).2 := by
  have hb := base_eq_of_salary_none p job t h g1 g2 n
  constructor
  · simp only [processJob, stripAP, hb]
  · simp only [processJob, hb]

theorem buildRecs_strip_of_salary_none (p : UserPreferences) (t : CareerTrajectory)
    (hist : List UserActivity) (now : ℚ) (h : p.salary_range = none) (g1 g2 : ℕ → ℚ) :
    ∀ (pool : List JobPosting) (n : ℕ),
      (buildRecs p t hist now g1 pool n).1.map stripAP =
        (buildRecs p t hist now g2 pool n).1.map stripAP ∧
      (buildRecs p t hist now g1 pool n).2 = (buildRecs p t hist now g2 pool n).2 := by
  intro pool
  induction pool with
  | nil => intro n; exact ⟨rfl, rfl⟩
  | cons job rest ih =>
    intro n
    obtain ⟨hs, hn⟩ := processJob_strip_of_salary_none p t hist now h g1 g2 job n
    constructor
    · simp only [buildRecs, List.map_cons]
      rw [hs, ← hn, (ih _).1]
    · simp only [buildRecs]
      rw [← hn, (ih _).2]

theorem filter_map_stripAP (p : JobRecommendation → Bool)
    (hp : ∀ r, p (stripAP r) = p r) (a b : List JobRecommendation)
    (hab : a.map stripAP = b.map stripAP) :
    (a.filter p).map stripAP = (b.filter p).map stripAP := by
  have key : ∀ l : List JobRecommendation,
      (l.filter p).map stripAP = (l.map stripAP).filter p := by
    intro l
    rw [List.filter_map]
    have hfun : (p ∘ stripAP) = p := by
      funext r
      exact hp r
    rw [hfun]
  rw [key, key, hab]

theorem backfill_strip (pf1 pf2 rem1 rem2 : List JobRecommendation)
    (hpf : pf1.map stripAP = pf2.map stripAP)
    (hrem : rem1.map stripAP = rem2.map stripAP) :
    (backfill pf1 rem1).1.map stripAP = (backfill pf2 rem2).1.map stripAP ∧
    (backfill pf1 rem1).2.map stripAP = (backfill pf2 rem2).2.map stripAP := by
  induction rem1 generalizing pf1 pf2 rem2 with
  | nil =>
    cases rem2 with
    | nil => exact ⟨hpf, rfl⟩
    | cons r' rs' => simp at hrem
  | cons r rs ih =>
    cases rem2 with
    | nil => simp at hrem
    | cons r' rs' =>
      simp only [List.map_cons, List.cons.injEq] at hrem
      obtain ⟨hr, hrs⟩ := hrem
      have hlen : pf1.length = pf2.length := by
        have hc := congrArg List.length hpf
        simpa using hc
      rw [backfill, backfill]
      by_cases hl : pf1.length < 10
      · rw [if_pos hl, if_pos (show pf2.length < 10 by omega)]
        exact ih (pf1 ++ [r]) (pf2 ++ [r']) rs' (by simp [hpf, hr]) hrs
      · rw [if_neg hl, if_neg (show ¬ pf2.length < 10 by omega)]
        refine ⟨hpf, ?_⟩
        simp only [List.map_cons]
        rw [hr, hrs]

end JobRecommender

end JobReady

/-! ## The claims -/

open JobReady

/-- **C2** (score bounds): every similarity score produced by the semantic
matcher's `match_jobs`, and every match score produced by the recommender's
scoring loop (after the weighted aggregation and after all activity-history
adjustments), lies in the closed interval `[0, 1]`. -/
theorem C2_score_bounds :
    (∀ (c : SemanticMatcher.CandidateProfile) (jobs : List SemanticMatcher.JobPosting),
      (SemanticMatcher.match_jobs c jobs).Forall
        (fun m => 0 ≤ m.similarity_score ∧ m.similarity_score ≤ 1)) ∧
    (∀ (p : JobRecommender.UserPreferences) (t : JobRecommender.CareerTrajectory)
      (hist : List JobRecommender.UserActivity) (now : ℚ) (g : ℕ → ℚ)
      (pool : List JobRecommender.JobPosting) (n : ℕ),
      ((JobRecommender.buildRecs p t hist now g pool n).1).Forall
        (fun r => 0 ≤ r.match_score ∧ r.match_score ≤ 1)) := by
  constructor
  · intro c jobs
    rw [List.forall_iff_forall_mem]
    intro m hm
    rw [SemanticMatcher.match_jobs, mem_sortKeyDesc] at hm
    obtain ⟨j, _, rfl⟩ := List.mem_map.mp hm
    rw [SemanticMatcher.mkJobMatch_score]
    exact ⟨SemanticMatcher.overallScore_nonneg c j, SemanticMatcher.overallScore_le_one c j⟩
  · intro p t hist now g pool n
    rw [List.forall_iff_forall_mem]
    exact JobRecommender.buildRecs_score_bounds p t hist now g pool n

/-- **C3** (result-count preservation): the semantic matcher's output has
exactly one `JobMatch` per input job — the multiset of output job ids is a
permutation of the input ids and the lengths agree — and the recommender's
scored list (the list that is then ranked and categorized) carries the
input pool's job ids in order, so no job is dropped before ranking. -/
theorem C3_result_count_preservation :
    (∀ (c : SemanticMatcher.CandidateProfile) (jobs : List SemanticMatcher.JobPosting),
      List.Perm ((SemanticMatcher.match_jobs c jobs).map (fun m => m.job_id))
        (jobs.map (fun j => j.id)) ∧
      (SemanticMatcher.match_jobs c jobs).length = jobs.length) ∧
    (∀ (p : JobRecommender.UserPreferences) (t : JobRecommender.CareerTrajectory)
      (hist : List JobRecommender.UserActivity) (now : ℚ) (g : ℕ → ℚ)
      (pool : List JobRecommender.JobPosting) (n : ℕ),
      ((JobRecommender.buildRecs p t hist now g pool n).1).map (fun r => r.job_id) =
        pool.map (fun j => j.id)) := by
  constructor
  · intro c jobs
    constructor
    · have hperm := (perm_sortKeyDesc (fun m : SemanticMatcher.JobMatch => m.similarity_score)
        (jobs.map (SemanticMatcher.mkJobMatch c))).map (fun m => m.job_id)
      rw [SemanticMatcher.match_jobs]
      refine hperm.trans ?_
      rw [List.map_map]
      exact List.Perm.refl _
    · rw [SemanticMatcher.match_jobs]
      rw [(perm_sortKeyDesc _ _).length_eq, List.length_map]
  · intro p t hist now g pool n
    exact JobRecommender.buildRecs_map_job_id p t hist now g pool n

/-- **C4** counterexample: on the spec's own example — candidate skills
`{"Python","SQL"}`, requirements `["Python","Django","AWS"]` — the matched
list returned by `calculate_skill_similarity` is the *normalized*
`["python"]`, not the original-casing `["Python"]` the claim requires. -/
theorem C4_counterexample :
    (SemanticMatcher.calculate_skill_similarity [str "Python", str "SQL"]
        [str "Python", str "Django", str "AWS"]).2.1 = [str "python"] ∧
    [str "python"] ≠ [str "Python"] := by
  constructor
  · decide
  · decide

/-- **C4** (amended): the matched and missing lists partition the job's
*normalized* requirement list (no overlap, no omission, no duplicates
beyond those in the input), the coverage ratio equals
`|matched| / |requirements|` (1 on an empty requirement list), and on the
spec's example the result is coverage `1/3`, matched `["python"]`,
missing `["django","aws"]` — i.e. the claim holds with the lists carrying
the lowercased, punctuation-stripped requirement strings rather than the
original casing. -/
theorem C4_skill_partition_normalized :
    (∀ skills reqs : List Str,
      List.Perm ((SemanticMatcher.calculate_skill_similarity skills reqs).2.1 ++
          (SemanticMatcher.calculate_skill_similarity skills reqs).2.2)
        (reqs.map SemanticMatcher.normalize_text) ∧
      (SemanticMatcher.calculate_skill_similarity skills reqs).1 =
        (if reqs = [] then 1 else
          (((SemanticMatcher.calculate_skill_similarity skills reqs).2.1.length : ℚ) /
            (reqs.length : ℚ)))) ∧
    SemanticMatcher.calculate_skill_similarity [str "Python", str "SQL"]
        [str "Python", str "Django", str "AWS"] =
      (1/3, [str "python"], [str "django", str "aws"]) := by
  constructor
  · intro skills reqs
    constructor
    · simp only [SemanticMatcher.calculate_skill_similarity,
        SemanticMatcher.skillPartition_eq_filter]
      exact List.filter_append_perm _ _
    · simp only [SemanticMatcher.calculate_skill_similarity,
        SemanticMatcher.skillPartition_eq_filter]
      by_cases hreq : reqs = []
      · simp [hreq]
      · have hmap : reqs.map SemanticMatcher.normalize_text ≠ [] := by
          simpa using hreq
        rw [if_neg hmap, if_neg hreq, List.length_map]
  · have h : SemanticMatcher.skillPartition
        (List.map SemanticMatcher.normalize_text [str "Python", str "SQL"])
        (List.map SemanticMatcher.normalize_text [str "Python", str "Django", str "AWS"]) =
        ([str "python"], [str "django", str "aws"]) := by decide
    simp only [SemanticMatcher.calculate_skill_similarity, h]
    norm_num
    decide

/-- **C8** (ranking order and tie stability): both engines sort their
scored lists by final score descending, and filtering the sorted output at
any fixed score level gives exactly the same sublist, in the same order,
as filtering the pre-sort (input-pool-ordered) scored list — i.e. equal
scores keep their input order (stable sort). -/
theorem C8_ranking_stability :
    (∀ (c : SemanticMatcher.CandidateProfile) (jobs : List SemanticMatcher.JobPosting),
      (SemanticMatcher.match_jobs c jobs).Pairwise
        (fun a b => b.similarity_score ≤ a.similarity_score) ∧
      ∀ s : ℚ,
        (SemanticMatcher.match_jobs c jobs).filter
            (fun m => decide (m.similarity_score = s)) =
          (jobs.map (SemanticMatcher.mkJobMatch c)).filter
            (fun m => decide (m.similarity_score = s))) ∧
    (∀ (p : JobRecommender.UserPreferences) (t : JobRecommender.CareerTrajectory)
      (hist : List JobRecommender.UserActivity) (now : ℚ) (g : ℕ → ℚ)
      (pool : List JobRecommender.JobPosting) (n : ℕ),
      (sortKeyDesc (fun r => r.match_score)
          ((JobRecommender.buildRecs p t hist now g pool n).1)).Pairwise
        (fun a b => b.match_score ≤ a.match_score) ∧
      ∀ s : ℚ,
        (sortKeyDesc (fun r => r.match_score)
            ((JobRecommender.buildRecs p t hist now g pool n).1)).filter
            (fun r => decide (r.match_score = s)) =
          ((JobRecommender.buildRecs p t hist now g pool n).1).filter
            (fun r => decide (r.match_score = s))) := by
  constructor
  · intro c jobs
    exact ⟨sorted_sortKeyDesc _ _, fun s => filter_sortKeyDesc _ s _⟩
  · intro p t hist now g pool n
    exact ⟨sorted_sortKeyDesc _ _, fun s => filter_sortKeyDesc _ s _⟩

/-- **C5** (activity adjustment): the adjusted score equals the clamp to
`[0, 1]` of the input score plus the sum of the per-event deltas
(+0.10 applied, −0.20 dismissed, +0.05 saved) over exactly those history
events whose job id equals the job's id and whose timestamp lies inside
the trailing 30-day window; events outside the window or with a different
job id contribute nothing, deltas accumulate additively, and clamping
happens only once at the end.  On the spec's example, two dismissals
inside the window sum to −0.40 before clamping, and a score of 1 becomes
0.6. -/
theorem C5_activity_adjustment :
    (∀ (score : ℚ) (jid : Str) (hist : List JobRecommender.UserActivity) (now : ℚ),
      JobRecommender.adjust_for_activity_history score jid hist now =
        JobRecommender.clamp01 (score +
          ((hist.filter (fun a => decide (a.job_id = jid) &&
              decide (now - 30 < a.timestamp))).map
            (fun a => JobRecommender.actionDelta a.action)).sum)) ∧
    ((([⟨str "j1", JobRecommender.Action.dismissed, 90⟩,
        ⟨str "j1", JobRecommender.Action.dismissed, 95⟩] :
        List JobRecommender.UserActivity).filter
          (fun a => decide (a.job_id = str "j1") &&
            decide ((100 : ℚ) - 30 < a.timestamp))).map
        (fun a => JobRecommender.actionDelta a.action)).sum = -(0.4) ∧
    JobRecommender.adjust_for_activity_history 1 (str "j1")
      [⟨str "j1", JobRecommender.Action.dismissed, 90⟩,
       ⟨str "j1", JobRecommender.Action.dismissed, 95⟩] 100 = 0.6 := by
  refine ⟨?_, ?_, ?_⟩
  · intro score jid hist now
    rw [JobRecommender.adjust_for_activity_history]
    rw [JobRecommender.adjust_foldl_eq jid]
    rw [List.filter_filter]
  · have h1 : ((100 : ℚ) - 30 < 90) := by norm_num
    have h2 : ((100 : ℚ) - 30 < 95) := by norm_num
    simp [JobRecommender.actionDelta, h1, h2]
    norm_num
  · have h1 : ((100 : ℚ) - 30 < 90) := by norm_num
    have h2 : ((100 : ℚ) - 30 < 95) := by norm_num
    rw [JobRecommender.adjust_for_activity_history]
    simp [JobRecommender.clamp01, h1, h2]
    norm_num

/-- **C7** (neutral values on empty denominators): the skill coverage
ratio is `1` when the job's requirement list is empty, and the experience
(text) similarity is `0` — a defined value, not an error and not `NaN` —
whenever the union of the two token multisets is empty, which covers the
case of empty text on both sides.  (Both functions are total Lean
functions, so non-raising is by construction.) -/
theorem C7_neutral_values :
    (∀ skills : List Str, (SemanticMatcher.calculate_skill_similarity skills []).1 = 1) ∧
    (∀ (exp : List Str) (desc : Str),
      SemanticMatcher.counterUnion ((exp.map SemanticMatcher.extract_keywords).flatten)
          (SemanticMatcher.extract_keywords desc) = 0 →
      SemanticMatcher.calculate_experience_similarity exp desc = 0) := by
  constructor
  · intro skills
    rfl
  · intro exp desc h
    simp only [SemanticMatcher.calculate_experience_similarity]
    rw [if_pos h]

/-- Witness for **C7** at the concrete empty input: both token multisets
are empty, the union is 0, and the similarity is 0 rather than an error. -/
theorem C7_witness :
    SemanticMatcher.counterUnion ((([] : List Str).map SemanticMatcher.extract_keywords).flatten)
        (SemanticMatcher.extract_keywords (str "")) = 0 ∧
    SemanticMatcher.calculate_experience_similarity [] (str "") = 0 :=
  ⟨by decide, C7_neutral_values.2 [] (str "") (by decide)⟩

/-- **C10** (implicit; no `new_opportunity` category): every scored job is
assigned one of `for_you`, `career_growth`, `skill_match`, and therefore
the `new_opportunities` list of the response is empty for every request,
every clock value and every random stream. -/
theorem C10_no_new_opportunity :
    ∀ (req : JobRecommender.RecommendationRequest) (now : ℚ) (g : ℕ → ℚ),
      ((JobRecommender.buildRecs req.preferences req.career_trajectory
          req.activity_history now g req.job_pool 0).1).Forall
        (fun r => r.recommendation_type = JobRecommender.RecType.for_you ∨
          r.recommendation_type = JobRecommender.RecType.career_growth ∨
          r.recommendation_type = JobRecommender.RecType.skill_match) ∧
      (JobRecommender.generate_recommendations req now g).new_opportunities = [] := by
  intro req now g
  constructor
  · rw [List.forall_iff_forall_mem]
    intro r hr
    have hne := JobRecommender.buildRecs_recType req.preferences req.career_trajectory
      req.activity_history now g req.job_pool 0 r hr
    cases hval : r.recommendation_type with
    | for_you => exact Or.inl rfl
    | career_growth => exact Or.inr (Or.inl rfl)
    | skill_match => exact Or.inr (Or.inr rfl)
    | new_opportunity => exact absurd hval hne
  · simp only [JobRecommender.generate_recommendations]
    have hfil : (sortKeyDesc (fun r => r.match_score)
        ((JobRecommender.buildRecs req.preferences req.career_trajectory
          req.activity_history now g req.job_pool 0).1)).filter
        (fun r => decide (r.recommendation_type = JobRecommender.RecType.new_opportunity)) = [] := by
      rw [List.filter_eq_nil_iff]
      intro r hr
      have hmem := (mem_sortKeyDesc _ _ r).mp hr
      have hne := JobRecommender.buildRecs_recType req.preferences req.career_trajectory
        req.activity_history now g req.job_pool 0 r hmem
      simp [hne]
    rw [hfil]
    rfl

/-- **C6** counterexample: in the recommender, an empty
`preferred_locations` list is *not* treated as "no constraint": with
`preferred_locations = []`, `job.location = "Berlin"` and a non-remote
job, the location condition of `calculate_base_match_score` is false and
(with every other preference empty too) the base score is `0`, while the
claim demands a full location match of `1.0`; the semantic matcher's
`calculate_location_match` does return `1` on the same example. -/
theorem C6_counterexample :
    JobRecommender.locationCond
        ⟨[], [], [], [], none, str ""⟩
        ⟨str "job1", str "Engineer", str "Acme", str "Berlin", str "Full-time",
          str "", [], none, str "", false, str "Tech", str "senior"⟩ = false ∧
    (JobRecommender.calculate_base_match_score
        ⟨[], [], [], [], none, str ""⟩
        ⟨str "job1", str "Engineer", str "Acme", str "Berlin", str "Full-time",
          str "", [], none, str "", false, str "Tech", str "senior"⟩
        ⟨str "Engineer", 3, [], [], []⟩ (fun _ => 0) 0).1 = 0 ∧
    SemanticMatcher.calculate_location_match [] (str "Berlin") = 1 := by
  refine ⟨by decide, ?_, rfl⟩
  have hloc : JobRecommender.locationCond
      ⟨[], [], [], [], none, str ""⟩
      ⟨str "job1", str "Engineer", str "Acme", str "Berlin", str "Full-time",
        str "", [], none, str "", false, str "Tech", str "senior"⟩ = false := by decide
  have hrole : JobRecommender.roleCondForScore
      ⟨[], [], [], [], none, str ""⟩
      ⟨str "job1", str "Engineer", str "Acme", str "Berlin", str "Full-time",
        str "", [], none, str "", false, str "Tech", str "senior"⟩ = false := by decide
  have hexp : ¬ (str "senior" = str "") := by decide
  simp [JobRecommender.calculate_base_match_score, hloc, hrole, hexp]

/-- **C6** (amended): the two services implement different location rules.
The semantic matcher's `calculate_location_match` is `1` exactly when the
preference list is empty (no constraint) or some preferred location
matches the job location by normalized substring in either direction, and
is `0` otherwise — it has no remote-job escape.  The recommender's
location condition instead grants its weight exactly when the job's
location is *exactly* one of the preferred locations (Python list
membership, no normalization) or the job is marked remote — an empty
preference list grants nothing for non-remote jobs. -/
theorem C6_location_match_corrected :
    (∀ (locs : List Str) (loc : Str),
      (SemanticMatcher.calculate_location_match locs loc = 1 ↔
        locs = [] ∨ ∃ l ∈ locs,
          (isInfixOf (SemanticMatcher.normalize_text l) (SemanticMatcher.normalize_text loc) ||
           isInfixOf (SemanticMatcher.normalize_text loc) (SemanticMatcher.normalize_text l)) = true) ∧
      (SemanticMatcher.calculate_location_match locs loc = 1 ∨
       SemanticMatcher.calculate_location_match locs loc = 0)) ∧
    (∀ (prefs : JobRecommender.UserPreferences) (job : JobRecommender.JobPosting),
      JobRecommender.locationCond prefs job = true ↔
        job.location ∈ prefs.preferred_locations ∨ job.is_remote = true) := by
  constructor
  · intro locs loc
    refine ⟨?_, SemanticMatcher.calculate_location_match_cases locs loc⟩
    rw [SemanticMatcher.calculate_location_match]
    by_cases hnil : locs = []
    · simp [hnil]
    · rw [if_neg hnil]
      split
      · rename_i hany
        rw [List.any_eq_true] at hany
        exact iff_of_true rfl (Or.inr hany)
      · rename_i hany
        rw [List.any_eq_true] at hany
        constructor
        · intro h01
          norm_num at h01
        · intro h
          rcases h with h | hex
          · exact absurd h hnil
          · exact absurd hex hany
  · intro prefs job
    rw [JobRecommender.locationCond, Bool.or_eq_true, List.elem_iff]

/-- **C9** (skill monotonicity): if a skill `s` whose normalization equals
one of a job's currently-missing requirements is appended to the
candidate's skills — everything else unchanged — then that job's skill
coverage ratio strictly increases and its overall (final) similarity score
does not decrease. -/
theorem C9_skill_monotonicity :
    ∀ (c : SemanticMatcher.CandidateProfile) (job : SemanticMatcher.JobPosting) (s : Str),
      SemanticMatcher.normalize_text s ∈
          (SemanticMatcher.calculate_skill_similarity c.skills job.requirements).2.2 →
      (SemanticMatcher.calculate_skill_similarity c.skills job.requirements).1 <
        (SemanticMatcher.calculate_skill_similarity (c.skills ++ [s]) job.requirements).1 ∧
      SemanticMatcher.overallScore c job ≤
        SemanticMatcher.overallScore { c with skills := c.skills ++ [s] } job := by
  intro c job s hmiss
  have hm2 : SemanticMatcher.normalize_text s ∈
      (job.requirements.map SemanticMatcher.normalize_text).filter
        (fun r => ! SemanticMatcher.matchedReq (c.skills.map SemanticMatcher.normalize_text) r) := by
    simpa [SemanticMatcher.calculate_skill_similarity,
      SemanticMatcher.skillPartition_eq_filter] using hmiss
  obtain ⟨hin, hcond⟩ := List.mem_filter.mp hm2
  have hfalse : SemanticMatcher.matchedReq (c.skills.map SemanticMatcher.normalize_text)
      (SemanticMatcher.normalize_text s) = false := by
    simpa using hcond
  have hq : SemanticMatcher.matchedReq
      (c.skills.map SemanticMatcher.normalize_text ++ [SemanticMatcher.normalize_text s])
      (SemanticMatcher.normalize_text s) = true := by
    rw [SemanticMatcher.matchedReq_iff]
    exact Or.inl (List.mem_append_of_mem_right _ (List.mem_singleton.mpr rfl))
  have hmono : ∀ x, SemanticMatcher.matchedReq (c.skills.map SemanticMatcher.normalize_text) x = true →
      SemanticMatcher.matchedReq
        (c.skills.map SemanticMatcher.normalize_text ++ [SemanticMatcher.normalize_text s]) x = true :=
    fun x hx => SemanticMatcher.matchedReq_mono _ _ x hx
  have hcount := SemanticMatcher.countP_lt_of_mem _ _ hmono
    (job.requirements.map SemanticMatcher.normalize_text)
    (SemanticMatcher.normalize_text s) hin hfalse hq
  rw [List.countP_eq_length_filter, List.countP_eq_length_filter] at hcount
  have hne : job.requirements.map SemanticMatcher.normalize_text ≠ [] :=
    List.ne_nil_of_mem hin
  have hpos : (0 : ℚ) < ((job.requirements.map SemanticMatcher.normalize_text).length : ℚ) := by
    exact_mod_cast List.length_pos.mpr hne
  have hskill : (SemanticMatcher.calculate_skill_similarity c.skills job.requirements).1 <
      (SemanticMatcher.calculate_skill_similarity (c.skills ++ [s]) job.requirements).1 := by
    simp only [SemanticMatcher.calculate_skill_similarity,
      SemanticMatcher.skillPartition_eq_filter, List.map_append, List.map_cons, List.map_nil]
    rw [if_neg hne, if_neg hne]
    exact (div_lt_div_iff_of_pos_right hpos).mpr (by exact_mod_cast hcount)
  refine ⟨hskill, ?_⟩
  rw [SemanticMatcher.overallScore, SemanticMatcher.overallScore]
  dsimp only
  have hle := le_of_lt hskill
  nlinarith [hle]

/-- Witness for **C9** on the spec's example: adding `"Django"` to skills
`{"Python","SQL"}` against requirements `["Python","Django","AWS"]`
strictly increases the coverage and does not decrease the overall score. -/
theorem C9_witness :
    SemanticMatcher.normalize_text (str "Django") ∈
      (SemanticMatcher.calculate_skill_similarity [str "Python", str "SQL"]
        [str "Python", str "Django", str "AWS"]).2.2 ∧
    ((SemanticMatcher.calculate_skill_similarity [str "Python", str "SQL"]
        [str "Python", str "Django", str "AWS"]).1 <
      (SemanticMatcher.calculate_skill_similarity ([str "Python", str "SQL"] ++ [str "Django"])
        [str "Python", str "Django", str "AWS"]).1 ∧
      SemanticMatcher.overallScore
          ⟨[str "Python", str "SQL"], [], [], [], [], []⟩
          ⟨str "j1", str "T", str "Co", str "", [str "Python", str "Django", str "AWS"],
            str "", str "", none, []⟩ ≤
        SemanticMatcher.overallScore
          ⟨[str "Python", str "SQL"] ++ [str "Django"], [], [], [], [], []⟩
          ⟨str "j1", str "T", str "Co", str "", [str "Python", str "Django", str "AWS"],
            str "", str "", none, []⟩) :=
  ⟨by decide,
    C9_skill_monotonicity
      ⟨[str "Python", str "SQL"], [], [], [], [], []⟩
      ⟨str "j1", str "T", str "Co", str "", [str "Python", str "Django", str "AWS"],
        str "", str "", none, []⟩
      (str "Django") (by decide)⟩

/-- **C1** (amended, determinism): the recommender is a pure function of
its inputs *and* the stream of `random.random()` draws.  When the request
carries no `salary_range` preference, everything in the response except
the `apply_probability` field — in particular every per-job match score,
the output ordering, the reasons and the categories — is identical for
any two draw streams (i.e. for any two invocations on identical inputs);
`apply_probability` always consumes a draw, and with a `salary_range`
present the match scores themselves consume one (see the counterexample).
The semantic matcher's `match_jobs` takes no random input at all. -/
theorem C1_determinism_corrected :
    ∀ (req : JobRecommender.RecommendationRequest) (now : ℚ) (g1 g2 : ℕ → ℚ),
      req.preferences.salary_range = none →
      JobRecommender.eraseAPResp (JobRecommender.generate_recommendations req now g1) =
        JobRecommender.eraseAPResp (JobRecommender.generate_recommendations req now g2) := by
  intro req now g1 g2 h
  obtain ⟨hrecs, -⟩ := JobRecommender.buildRecs_strip_of_salary_none req.preferences
    req.career_trajectory req.activity_history now h g1 g2 req.job_pool 0
  have hsorted :
      (sortKeyDesc (fun r => r.match_score)
        ((JobRecommender.buildRecs req.preferences req.career_trajectory
          req.activity_history now g1 req.job_pool 0).1)).map JobRecommender.stripAP =
      (sortKeyDesc (fun r => r.match_score)
        ((JobRecommender.buildRecs req.preferences req.career_trajectory
          req.activity_history now g2 req.job_pool 0).1)).map JobRecommender.stripAP := by
    rw [map_sortKeyDesc (fun r : JobRecommender.JobRecommendation => r.match_score)
          JobRecommender.stripAP (fun x => rfl),
        map_sortKeyDesc (fun r : JobRecommender.JobRecommendation => r.match_score)
          JobRecommender.stripAP (fun x => rfl), hrecs]
  have hfil : ∀ t : JobRecommender.RecType,
      ((sortKeyDesc (fun r => r.match_score)
        ((JobRecommender.buildRecs req.preferences req.career_trajectory
          req.activity_history now g1 req.job_pool 0).1)).filter
          (fun r => decide (r.recommendation_type = t))).map JobRecommender.stripAP =
      ((sortKeyDesc (fun r => r.match_score)
        ((JobRecommender.buildRecs req.preferences req.career_trajectory
          req.activity_history now g2 req.job_pool 0).1)).filter
          (fun r => decide (r.recommendation_type = t))).map JobRecommender.stripAP :=
    fun t => JobRecommender.filter_map_stripAP
      (fun r => decide (r.recommendation_type = t)) (fun r => rfl) _ _ hsorted
  have hpf :
      (((sortKeyDesc (fun r => r.match_score)
        ((JobRecommender.buildRecs req.preferences req.career_trajectory
          req.activity_history now g1 req.job_pool 0).1)).filter
          (fun r => decide (r.recommendation_type = JobRecommender.RecType.for_you))).take 10).map
            JobRecommender.stripAP =
      (((sortKeyDesc (fun r => r.match_score)
        ((JobRecommender.buildRecs req.preferences req.career_trajectory
          req.activity_history now g2 req.job_pool 0).1)).filter
          (fun r => decide (r.recommendation_type = JobRecommender.RecType.for_you))).take 10).map
            JobRecommender.stripAP := by
    rw [List.map_take, List.map_take]
    exact congrArg (List.take 10) (hfil JobRecommender.RecType.for_you)
  have hbf := JobRecommender.backfill_strip _ _ _ _ hpf hsorted
  simp only [JobRecommender.generate_recommendations, JobRecommender.eraseAPResp,
    JobRecommender.RecommendationResponse.mk.injEq]
  refine ⟨?_, hbf.1, ?_, ?_, ?_⟩
  · rw [List.map_take, List.map_take]
    exact congrArg (List.take 20) hbf.2
  · rw [List.map_take, List.map_take]
    exact congrArg (List.take 5) (hfil JobRecommender.RecType.career_growth)
  · rw [List.map_take, List.map_take]
    exact congrArg (List.take 5) (hfil JobRecommender.RecType.skill_match)
  · rw [List.map_take, List.map_take]
    exact congrArg (List.take 5) (hfil JobRecommender.RecType.new_opportunity)

/-- **C1** counterexample: with a `salary_range` preference present, the
per-job match score depends on the `random.random()` draws (line 179 of
the recommender), so two invocations on identical inputs can return
different scores: on a one-job pool the draw stream `0, 0, …` yields
match score `0` while the stream `1/2, 1/2, …` yields `1/20`. -/
theorem C1_counterexample :
    ((JobRecommender.buildRecs
        ⟨[], [], [], [], some (50000, 100000), str ""⟩
        ⟨str "Engineer", 3, [], [], []⟩
        [] 100 (fun _ => 0)
        [⟨str "job1", str "Engineer", str "Acme", str "Berlin", str "Full-time",
          str "", [str "Python"], none, str "", false, str "Tech", str "senior"⟩] 0).1.map
      (fun r => r.match_score) = [0]) ∧
    ((JobRecommender.buildRecs
        ⟨[], [], [], [], some (50000, 100000), str ""⟩
        ⟨str "Engineer", 3, [], [], []⟩
        [] 100 (fun _ => 1/2)
        [⟨str "job1", str "Engineer", str "Acme", str "Berlin", str "Full-time",
          str "", [str "Python"], none, str "", false, str "Tech", str "senior"⟩] 0).1.map
      (fun r => r.match_score) = [1/20]) ∧
    (0 : ℚ) ≠ 1/20 := by
  have hloc : JobRecommender.locationCond
      ⟨[], [], [], [], some (50000, 100000), str ""⟩
      ⟨str "job1", str "Engineer", str "Acme", str "Berlin", str "Full-time",
        str "", [str "Python"], none, str "", false, str "Tech", str "senior"⟩ = false := by
    decide
  have hrole : JobRecommender.roleCondForScore
      ⟨[], [], [], [], some (50000, 100000), str ""⟩
      ⟨str "job1", str "Engineer", str "Acme", str "Berlin", str "Full-time",
        str "", [str "Python"], none, str "", false, str "Tech", str "senior"⟩ = false := by
    decide
  have hskill : JobRecommender.skillMatchCount
      ⟨str "Engineer", 3, [], [], []⟩
      ⟨str "job1", str "Engineer", str "Acme", str "Berlin", str "Full-time",
        str "", [str "Python"], none, str "", false, str "Tech", str "senior"⟩ = 0 := by
    decide
  have hexp : ¬ (str "senior" = str "") := by decide
  refine ⟨?_, ?_, by norm_num⟩
  · simp [JobRecommender.buildRecs, JobRecommender.processJob,
      JobRecommender.calculate_base_match_score, JobRecommender.adjust_for_activity_history,
      JobRecommender.clamp01, hloc, hrole, hskill, hexp]
  · simp [JobRecommender.buildRecs, JobRecommender.processJob,
      JobRecommender.calculate_base_match_score, JobRecommender.adjust_for_activity_history,
      JobRecommender.clamp01, hloc, hrole, hskill, hexp]
    norm_num

/-- Witness for **C1** (amended) at a concrete request with no
`salary_range`: the draw streams `0, 0, …` and `1, 1, …` produce the same
response up to `apply_probability`. -/
theorem C1_witness :
    (⟨str "u", ⟨str "Engineer", 3, [], [], []⟩,
      ⟨[], [], [], [], none, str ""⟩, [],
      [⟨str "job1", str "Engineer", str "Acme", str "Berlin", str "Full-time",
        str "", [str "Python"], none, str "", false, str "Tech", str "senior"⟩]⟩ :
      JobRecommender.RecommendationRequest).preferences.salary_range = none ∧
    JobRecommender.eraseAPResp (JobRecommender.generate_recommendations
      ⟨str "u", ⟨str "Engineer", 3, [], [], []⟩,
        ⟨[], [], [], [], none, str ""⟩, [],
        [⟨str "job1", str "Engineer", str "Acme", str "Berlin", str "Full-time",
          str "", [str "Python"], none, str "", false, str "Tech", str "senior"⟩]⟩
      100 (fun _ => 0)) =
    JobRecommender.eraseAPResp (JobRecommender.generate_recommendations
      ⟨str "u", ⟨str "Engineer", 3, [], [], []⟩,
        ⟨[], [], [], [], none, str ""⟩, [],
        [⟨str "job1", str "Engineer", str "Acme", str "Berlin", str "Full-time",
          str "", [str "Python"], none, str "", false, str "Tech", str "senior"⟩]⟩
      100 (fun _ => 1)) :=
  ⟨rfl, C1_determinism_corrected _ 100 (fun _ => 0) (fun _ => 1) rfl⟩


